import Mathlib

/-!
Shallow embedding of the agentation server core (store.ts, http.ts, mcp.ts).

The store keeps two JavaScript `Map`s, `sessions` and `annotations`, both
keyed by generated id strings.  We model a `Map` as an association list in
insertion order: `set` on a fresh key appends, `set` on (or in-place object
mutation of) an existing key replaces the value at its position, and
`Array.from(map.values())` is the list of values in that order.

Ambient effects (`Date.now()`, `new Date().toISOString()`, `Math.random()`)
are modelled as explicit arguments: each read the source performs becomes
one argument of the operation.
-/

namespace Agentation

/-- The `AnnotationStatus` union type from types.ts:
`"pending" | "acknowledged" | "resolved" | "dismissed"`. -/
inductive AnnotationStatus
  | pending
  | acknowledged
  | resolved
  | dismissed
deriving DecidableEq, Repr

/-- The `"human" | "agent"` union used for `resolvedBy` and thread roles. -/
inductive Role
  | human
  | agent
deriving DecidableEq, Repr

/-- The `"active" | "closed"` union for session status. -/
inductive SessionStatus
  | active
  | closed
deriving DecidableEq, Repr

/-- A `ThreadMessage` from types.ts. -/
structure ThreadMessage where
  id : String
  role : Role
  content : String
  timestamp : Nat
deriving DecidableEq, Repr

/-- A `Session` from types.ts. -/
structure Session where
  id : String
  url : String
  status : SessionStatus
  createdAt : String
  updatedAt : Option String := none
  projectId : Option String := none
deriving DecidableEq, Repr

/-- An `Annotation` from types.ts.  The name is shortened to `Annot`;
all field names follow the source.  Optional context fields are opaque
pass-through data. -/
structure Annot where
  id : String
  sessionId : String
  comment : String
  element : String
  elementPath : String
  url : Option String := none
  intent : Option String := none
  severity : Option String := none
  timestamp : Option Nat := none
  nearbyText : Option String := none
  reactComponents : Option (List String) := none
  status : AnnotationStatus
  createdAt : String
  updatedAt : Option String := none
  resolvedAt : Option String := none
  resolvedBy : Option Role := none
  thread : Option (List ThreadMessage) := none
deriving DecidableEq, Repr

/-! ### JavaScript `Map` as an association list -/

/-- `map.get(k)` -/
def mapGet (m : List (String × α)) (k : String) : Option α :=
  (m.find? (fun p => p.1 == k)).map (·.2)

/-- Replace the value stored under key `k`, keeping its position.
This is both `map.set(k, v)` for a present key and the effect of mutating
in place the object previously obtained by `map.get(k)`. -/
def mapReplace (m : List (String × α)) (k : String) (v : α) : List (String × α) :=
  m.map (fun p => if p.1 == k then (k, v) else p)

/-- `map.set(k, v)`: replace in place when the key is present, append
otherwise. -/
def mapSet (m : List (String × α)) (k : String) (v : α) : List (String × α) :=
  if (mapGet m k).isSome then mapReplace m k v else m ++ [(k, v)]

/-- `Array.from(map.values())` -/
def mapValues (m : List (String × α)) : List α :=
  m.map (·.2)

/-! ### Id generation -/

/-- One base-36 digit as produced by JavaScript `Number.prototype.toString(36)`:
`0`–`9` then `a`–`z`. -/
def base36Char (d : Nat) : Char :=
  if d < 10 then Char.ofNat (48 + d) else Char.ofNat (87 + d)

/-- Accumulator loop producing the base-36 digits of `n`, most significant
first.  The first argument is fuel (structural recursion); starting it at
`n` itself is always enough since the value shrinks by a factor of 36 per
step. -/
def natToBase36Go : Nat → Nat → List Char → List Char
  | 0, _, acc => acc
  | fuel + 1, n, acc =>
      if n = 0 then acc
      else natToBase36Go fuel (n / 36) (base36Char (n % 36) :: acc)

/-- JavaScript `n.toString(36)` for a natural number `n`. -/
def natToBase36 (n : Nat) : String :=
  if n = 0 then "0" else String.mk (natToBase36Go n n [])

/-- store.ts `generateId`:
`Date.now().toString(36) + "-" + Math.random().toString(36).slice(2, 8)`.
`timeMs` is the `Date.now()` read and `rand` the random suffix. -/
def generateId (timeMs : Nat) (rand : String) : String :=
  natToBase36 timeMs ++ "-" ++ rand

/-! ### Store state -/

/-- The two module-level `Map`s of store.ts. -/
structure Store where
  sessions : List (String × Session) := []
  annotations : List (String × Annot) := []
deriving DecidableEq, Repr

/-- The empty store (module load / after `clearAll`). -/
def Store.empty : Store := {}

/-! ### Session operations (store.ts) -/

/-- store.ts `createSession`.  `t`/`rand` feed `generateId`; `now` is the
`toISOString` read for `createdAt`. -/
def createSession (st : Store) (t : Nat) (rand : String) (now : String)
    (url : String) (projectId : Option String) : Session × Store :=
  let id := generateId t rand
  let session : Session :=
    { id := id, url := url, status := .active, createdAt := now,
      projectId := projectId }
  (session, { st with sessions := mapSet st.sessions id session })

/-- store.ts `getSession`. -/
def getSession (st : Store) (id : String) : Option Session :=
  mapGet st.sessions id

/-- store.ts `getSessionWithAnnotations`: the session paired with every
stored annotation whose `sessionId` matches. -/
def getSessionWithAnnotations (st : Store) (id : String) :
    Option (Session × List Annot) :=
  match mapGet st.sessions id with
  | none => none
  | some session =>
      some (session, (mapValues st.annotations).filter (fun a => a.sessionId == id))

/-- store.ts `updateSessionStatus`. -/
def updateSessionStatus (st : Store) (id : String) (status : SessionStatus)
    (now : String) : Option Session × Store :=
  match mapGet st.sessions id with
  | none => (none, st)
  | some session =>
      let s := { session with status := status, updatedAt := some now }
      (some s, { st with sessions := mapReplace st.sessions id s })

/-- store.ts `listSessions`. -/
def listSessions (st : Store) : List Session :=
  mapValues st.sessions

/-! ### Annotation operations (store.ts) -/

/-- The `Omit<Annotation, "id" | "sessionId" | "status" | "createdAt">`
payload accepted by `addAnnotation`. -/
structure AnnotData where
  comment : String
  element : String
  elementPath : String
  url : Option String := none
  intent : Option String := none
  severity : Option String := none
  timestamp : Option Nat := none
  nearbyText : Option String := none
  reactComponents : Option (List String) := none
  updatedAt : Option String := none
  resolvedAt : Option String := none
  resolvedBy : Option Role := none
  thread : Option (List ThreadMessage) := none
deriving DecidableEq, Repr

/-- store.ts `addAnnotation` (shortened to `addAnnot`): spread `data`, then
set `id`, `sessionId`, `status: "pending"` and `createdAt`.  Returns
`undefined` (here `none`) and leaves the store untouched when the session
does not exist. -/
def addAnnot (st : Store) (sessionId : String) (data : AnnotData)
    (t : Nat) (rand : String) (now : String) : Option Annot × Store :=
  match mapGet st.sessions sessionId with
  | none => (none, st)
  | some _ =>
      let a : Annot :=
        { id := generateId t rand, sessionId := sessionId,
          status := .pending, createdAt := now,
          comment := data.comment, element := data.element,
          elementPath := data.elementPath, url := data.url,
          intent := data.intent, severity := data.severity,
          timestamp := data.timestamp, nearbyText := data.nearbyText,
          reactComponents := data.reactComponents, updatedAt := data.updatedAt,
          resolvedAt := data.resolvedAt, resolvedBy := data.resolvedBy,
          thread := data.thread }
      (some a, { st with annotations := mapSet st.annotations a.id a })

/-- store.ts `getAnnotation` (shortened to `getAnnot`). -/
def getAnnot (st : Store) (id : String) : Option Annot :=
  mapGet st.annotations id

/-- store.ts `updateAnnotationStatus`.  `nowU` is the `toISOString` read
stored into `updatedAt`; `nowR` the separate read stored into `resolvedAt`
when the new status is `resolved` or `dismissed` (`resolvedBy || "agent"`). -/
def updateAnnotationStatus (st : Store) (id : String)
    (status : AnnotationStatus) (resolvedBy : Option Role)
    (nowU nowR : String) : Option Annot × Store :=
  match mapGet st.annotations id with
  | none => (none, st)
  | some a =>
      let a1 := { a with status := status, updatedAt := some nowU }
      let a2 :=
        if status = .resolved ∨ status = .dismissed then
          { a1 with resolvedAt := some nowR,
                    resolvedBy := some (resolvedBy.getD .agent) }
        else a1
      (some a2, { st with annotations := mapReplace st.annotations id a2 })

/-- A runtime partial-update payload for `updateAnnotation`.  The store
function is declared with `Partial<Omit<Annotation, "id" | "sessionId" |
"createdAt">>`, but the HTTP handler forwards the parsed JSON body (typed
`Partial<Annotation>`) unchecked, and `Object.assign` copies every key that
is present — including `id`, `sessionId` and `createdAt`.  So the runtime
payload may carry any field, and we model all of them. -/
structure AnnotPatch where
  id : Option String := none
  sessionId : Option String := none
  createdAt : Option String := none
  comment : Option String := none
  element : Option String := none
  elementPath : Option String := none
  url : Option String := none
  intent : Option String := none
  severity : Option String := none
  timestamp : Option Nat := none
  nearbyText : Option String := none
  reactComponents : Option (List String) := none
  status : Option AnnotationStatus := none
  updatedAt : Option String := none
  resolvedAt : Option String := none
  resolvedBy : Option Role := none
  thread : Option (List ThreadMessage) := none
deriving DecidableEq, Repr

/-- Merge one optional field: a key present in the patch overwrites the
stored option, an absent key keeps it. -/
def orKeep (p : Option α) (old : Option α) : Option α :=
  match p with
  | some v => some v
  | none => old

/-- `Object.assign(annotation, data, \x7b updatedAt: now \x7d)`: every
present key of `data` overwrites the field, and `updatedAt` is set last,
so a `data.updatedAt` key is always overridden by `now`. -/
def applyPatch (a : Annot) (p : AnnotPatch) (now : String) : Annot :=
  { id := p.id.getD a.id, sessionId := p.sessionId.getD a.sessionId,
    createdAt := p.createdAt.getD a.createdAt,
    comment := p.comment.getD a.comment,
    element := p.element.getD a.element,
    elementPath := p.elementPath.getD a.elementPath,
    url := orKeep p.url a.url, intent := orKeep p.intent a.intent,
    severity := orKeep p.severity a.severity,
    timestamp := orKeep p.timestamp a.timestamp,
    nearbyText := orKeep p.nearbyText a.nearbyText,
    reactComponents := orKeep p.reactComponents a.reactComponents,
    status := p.status.getD a.status,
    updatedAt := some now,
    resolvedAt := orKeep p.resolvedAt a.resolvedAt,
    resolvedBy := orKeep p.resolvedBy a.resolvedBy,
    thread := orKeep p.thread a.thread }

/-- store.ts `updateAnnotation` (shortened to `updateAnnot`).  Note the map
entry stays under the lookup key even when the patch rewrites the `id`
field, because the source mutates the fetched object in place. -/
def updateAnnot (st : Store) (id : String) (p : AnnotPatch) (now : String) :
    Option Annot × Store :=
  match mapGet st.annotations id with
  | none => (none, st)
  | some a =>
      let a1 := applyPatch a p now
      (some a1, { st with annotations := mapReplace st.annotations id a1 })

/-- store.ts `addThreadMessage`.  `t`/`rand` feed the message's
`generateId`, `ts` is the `Date.now()` stored as its `timestamp`, `now`
the `toISOString` read for `updatedAt`. -/
def addThreadMessage (st : Store) (annotationId : String) (role : Role)
    (content : String) (t : Nat) (rand : String) (ts : Nat) (now : String) :
    Option Annot × Store :=
  match mapGet st.annotations annotationId with
  | none => (none, st)
  | some a =>
      let msg : ThreadMessage :=
        { id := generateId t rand, role := role, content := content,
          timestamp := ts }
      let a1 := { a with thread := some (a.thread.getD [] ++ [msg]),
                         updatedAt := some now }
      (some a1, { st with annotations := mapReplace st.annotations annotationId a1 })

/-- store.ts `getPendingAnnotations`. -/
def getPendingAnnotations (st : Store) (sessionId : String) : List Annot :=
  (mapValues st.annotations).filter
    (fun a => a.sessionId == sessionId && a.status == .pending)

/-- store.ts `getSessionAnnotations`. -/
def getSessionAnnotations (st : Store) (sessionId : String) : List Annot :=
  (mapValues st.annotations).filter (fun a => a.sessionId == sessionId)

/-- store.ts `clearAll`. -/
def clearAll (_st : Store) : Store := {}

/-! ### Operation alphabet

One constructor per store mutator (reads excluded: they do not change
state), carrying the ambient inputs of that call.  `run` replays a call
sequence; reachable states are exactly `run Store.empty ops`. -/

/-- A single store call with its ambient inputs. -/
inductive Op
  | opCreateSession (t : Nat) (rand now url : String) (projectId : Option String)
  | opUpdateSessionStatus (id : String) (status : SessionStatus) (now : String)
  | opAddAnnot (sessionId : String) (data : AnnotData) (t : Nat) (rand now : String)
  | opUpdateStatus (id : String) (status : AnnotationStatus)
      (resolvedBy : Option Role) (nowU nowR : String)
  | opPatch (id : String) (patch : AnnotPatch) (now : String)
  | opAddThreadMessage (annotationId : String) (role : Role) (content : String)
      (t : Nat) (rand : String) (ts : Nat) (now : String)
  | opClearAll
deriving DecidableEq, Repr

/-- State effect of one call (return value discarded). -/
def step (st : Store) : Op → Store
  | .opCreateSession t rand now url projectId =>
      (createSession st t rand now url projectId).2
  | .opUpdateSessionStatus id status now => (updateSessionStatus st id status now).2
  | .opAddAnnot sessionId data t rand now => (addAnnot st sessionId data t rand now).2
  | .opUpdateStatus id status resolvedBy nowU nowR =>
      (updateAnnotationStatus st id status resolvedBy nowU nowR).2
  | .opPatch id patch now => (updateAnnot st id patch now).2
  | .opAddThreadMessage annotationId role content t rand ts now =>
      (addThreadMessage st annotationId role content t rand ts now).2
  | .opClearAll => clearAll st

/-- Replay a call sequence from a state. -/
def run (st : Store) (ops : List Op) : Store :=
  ops.foldl step st

/-- An `opPatch` payload that respects the TypeScript signature of
`updateAnnotation` (`Partial<Omit<Annotation, "id" | "sessionId" |
"createdAt">>`): the three omitted keys are absent.  Every other call is
well-typed as given. -/
def Op.wellTyped : Op → Prop
  | .opPatch _ patch _ =>
      patch.id = none ∧ patch.sessionId = none ∧ patch.createdAt = none
  | _ => True

/-! ### HTTP route handlers (http.ts)

The handlers are modelled at the point after JSON body parsing: a parsed
body is a record of the fields the handler reads.  In
`addAnnotationHandler` the truthiness test `!body.comment` conflates an
absent key with the empty string, so an absent required field is modelled
as `""`. -/

/-- Outcome of `POST /sessions/:id/annotations`. -/
inductive AddAnnotOutcome
  | badRequest (msg : String)
  | notFound (msg : String)
  | created (a : Annot)
deriving DecidableEq, Repr

/-- http.ts `addAnnotationHandler`: validate the three required fields,
then delegate to the store; a `none` from the store becomes a 404. -/
def addAnnotationHandler (st : Store) (id : String) (body : AnnotData)
    (t : Nat) (rand now : String) : AddAnnotOutcome × Store :=
  if body.comment = "" ∨ body.element = "" ∨ body.elementPath = "" then
    (.badRequest "comment, element, and elementPath are required", st)
  else
    match addAnnot st id body t rand now with
    | (none, st1) => (.notFound "Session not found", st1)
    | (some a, st1) => (.created a, st1)

/-- Outcome of `PATCH /annotations/:id`. -/
inductive PatchOutcome
  | notFound (msg : String)
  | ok (a : Annot)
deriving DecidableEq, Repr

/-- http.ts `updateAnnotationHandler`: existence check via `getAnnotation`,
then the store update; the body arrives as the runtime `AnnotPatch`,
unvalidated. -/
def updateAnnotationHandler (st : Store) (id : String) (body : AnnotPatch)
    (now : String) : PatchOutcome × Store :=
  match getAnnot st id with
  | none => (.notFound "Annotation not found", st)
  | some _ =>
      match updateAnnot st id body now with
      | (some a, st1) => (.ok a, st1)
      | (none, st1) => (.notFound "Annotation not found", st1)

/-! ### MCP tool adapter (mcp.ts) -/

/-- The argument object of a tool call: one optional slot per key any of
the zod schemas mentions.  `some s` is a present string key, `none` an
absent one. -/
structure ToolArgs where
  sessionId : Option String := none
  annotationId : Option String := none
  summary : Option String := none
  reason : Option String := none
  message : Option String := none
deriving DecidableEq, Repr

/-- The projection of a session returned by `agentation_list_sessions`. -/
structure SessionSummary where
  id : String
  url : String
  status : SessionStatus
  createdAt : String
deriving DecidableEq, Repr

/-- The projection of an annotation returned by `agentation_get_pending`. -/
structure PendingItem where
  id : String
  comment : String
  element : String
  elementPath : String
  url : Option String
  intent : Option String
  severity : Option String
  timestamp : Option Nat
  nearbyText : Option String
  reactComponents : Option (List String)
deriving DecidableEq, Repr

/-- mcp.ts projection used by `agentation_get_pending`. -/
def Annot.toPendingItem (a : Annot) : PendingItem :=
  { id := a.id, comment := a.comment, element := a.element,
    elementPath := a.elementPath, url := a.url, intent := a.intent,
    severity := a.severity, timestamp := a.timestamp,
    nearbyText := a.nearbyText, reactComponents := a.reactComponents }

/-- The structured data a tool call serializes into its text content.
JSON stringification is abstracted: we keep the data, not its rendering. -/
inductive ToolPayload
  | sessionsList (items : List SessionSummary)
  | sessionDetail (session : Session) (annots : List Annot)
  | pendingList (count : Nat) (items : List PendingItem)
  | acked (annotationId : String)
  | resolvedOk (annotationId : String) (summary : Option String)
  | dismissedOk (annotationId : String) (reason : String)
  | repliedOk (annotationId : String) (message : String)
  | text (msg : String)
deriving DecidableEq, Repr

/-- mcp.ts `ToolResult`. -/
structure ToolResult where
  payload : ToolPayload
  isError : Bool := false
deriving DecidableEq, Repr

/-- mcp.ts `success`. -/
def success (p : ToolPayload) : ToolResult := { payload := p }

/-- mcp.ts `error`. -/
def errorResult (msg : String) : ToolResult :=
  { payload := .text msg, isError := true }

/-- The ambient reads a single tool call may perform: `t`/`rand` feed the
thread message's `generateId`, `ts` its `Date.now()` timestamp, `now` the
`updatedAt` stamp of `addThreadMessage`, and `nowU`/`nowR` the two
`toISOString` reads of `updateAnnotationStatus`. -/
structure Ambient where
  t : Nat := 0
  rand : String := ""
  ts : Nat := 0
  now : String := ""
  nowU : String := ""
  nowR : String := ""
deriving DecidableEq, Repr

/-- mcp.ts `handleTool`.  A zod `parse` failure is a thrown exception,
modelled as `Except.error` with the (abstracted) error message; every
parse happens before any store mutation, exactly as in the source. -/
def handleTool (name : String) (args : ToolArgs) (st : Store) (amb : Ambient) :
    Except String (ToolResult × Store) :=
  if name = "agentation_list_sessions" then
    .ok (success (.sessionsList ((listSessions st).map fun s =>
      { id := s.id, url := s.url, status := s.status, createdAt := s.createdAt })), st)
  else if name = "agentation_get_session" then
    match args.sessionId with
    | none => .error "sessionId is required"
    | some sessionId =>
        match getSessionWithAnnotations st sessionId with
        | none => .ok (errorResult ("Session not found: " ++ sessionId), st)
        | some (session, annots) => .ok (success (.sessionDetail session annots), st)
  else if name = "agentation_get_pending" then
    match args.sessionId with
    | none => .error "sessionId is required"
    | some sessionId =>
        let pending := getPendingAnnotations st sessionId
        .ok (success (.pendingList pending.length (pending.map Annot.toPendingItem)), st)
  else if name = "agentation_acknowledge" then
    match args.annotationId with
    | none => .error "annotationId is required"
    | some annotationId =>
        match updateAnnotationStatus st annotationId .acknowledged none amb.nowU amb.nowR with
        | (none, st1) => .ok (errorResult ("Annotation not found: " ++ annotationId), st1)
        | (some _, st1) => .ok (success (.acked annotationId), st1)
  else if name = "agentation_resolve" then
    match args.annotationId with
    | none => .error "annotationId is required"
    | some annotationId =>
        match updateAnnotationStatus st annotationId .resolved (some .agent) amb.nowU amb.nowR with
        | (none, st1) => .ok (errorResult ("Annotation not found: " ++ annotationId), st1)
        | (some _, st1) =>
            let st2 :=
              match args.summary with
              | some s =>
                  if s = "" then st1
                  else (addThreadMessage st1 annotationId .agent ("Resolved: " ++ s)
                          amb.t amb.rand amb.ts amb.now).2
              | none => st1
            .ok (success (.resolvedOk annotationId args.summary), st2)
  else if name = "agentation_dismiss" then
    match args.annotationId, args.reason with
    | none, _ => .error "annotationId is required"
    | some _, none => .error "reason is required"
    | some annotationId, some reason =>
        match updateAnnotationStatus st annotationId .dismissed (some .agent) amb.nowU amb.nowR with
        | (none, st1) => .ok (errorResult ("Annotation not found: " ++ annotationId), st1)
        | (some _, st1) =>
            let st2 := (addThreadMessage st1 annotationId .agent ("Dismissed: " ++ reason)
                          amb.t amb.rand amb.ts amb.now).2
            .ok (success (.dismissedOk annotationId reason), st2)
  else if name = "agentation_reply" then
    match args.annotationId, args.message with
    | none, _ => .error "annotationId is required"
    | some _, none => .error "message is required"
    | some annotationId, some message =>
        match getAnnot st annotationId with
        | none => .ok (errorResult ("Annotation not found: " ++ annotationId), st)
        | some _ =>
            let st1 := (addThreadMessage st annotationId .agent message
                          amb.t amb.rand amb.ts amb.now).2
            .ok (success (.repliedOk annotationId message), st1)
  else
    .ok (errorResult ("Unknown tool: " ++ name), st)

/-- The `CallToolRequestSchema` handler registered in `startMcpServer`:
`try \x7b return await handleTool(...) \x7d catch (err) \x7b return
error(message) \x7d`.  A thrown parse error occurs before any store
mutation, so the caught branch leaves the state as it was. -/
def callTool (name : String) (args : ToolArgs) (st : Store) (amb : Ambient) :
    ToolResult × Store :=
  match handleTool name args st amb with
  | .ok r => r
  | .error msg => (errorResult msg, st)

/-- The tool names of the mcp.ts `TOOLS` catalogue. -/
def knownTools : List String :=
  ["agentation_list_sessions", "agentation_get_session", "agentation_get_pending",
   "agentation_acknowledge", "agentation_resolve", "agentation_dismiss",
   "agentation_reply"]

/-! ### Auxiliary notions used by the statements -/

/-- A string without the `-` character.  `Math.random().toString(36)`
consists of base-36 digits only, so every random suffix the source feeds
to `generateId` satisfies this. -/
def dashFree (s : String) : Prop :=
  ∀ c ∈ s.data, c ≠ '-'

instance (s : String) : Decidable (dashFree s) :=
  inferInstanceAs (Decidable (∀ c ∈ s.data, c ≠ '-'))

/-- The ambient inputs of one `addThreadMessage` call. -/
structure MsgCall where
  role : Role
  content : String
  t : Nat
  rand : String
  ts : Nat
  now : String
deriving DecidableEq, Repr

/-- The `ThreadMessage` that an `addThreadMessage` call with these inputs
constructs. -/
def msgOf (c : MsgCall) : ThreadMessage :=
  { id := generateId c.t c.rand, role := c.role, content := c.content,
    timestamp := c.ts }

/-- Run a sequence of `addThreadMessage` calls against one annotation id. -/
def appendCalls (st : Store) (id : String) (cs : List MsgCall) : Store :=
  cs.foldl
    (fun s c => (addThreadMessage s id c.role c.content c.t c.rand c.ts c.now).2)
    st

/-- The calls that can replace (rather than extend) the thread stored
under key `id`: a partial update carrying a `thread` key, and an add whose
generated id collides with `id` (the `Map.set` then overwrites the
entry). -/
def Op.replacesThread : Op → String → Prop
  | .opPatch pid patch _, id => pid = id ∧ patch.thread ≠ none
  | .opAddAnnot _ _ t rand _, id => generateId t rand = id
  | _, _ => False

/-! ### A small concrete run used by scenario statements

The spec scenario: create a session for `http://x`, add the `fix button`
feedback to it.  Ambient inputs are chosen arbitrarily. -/

/-- Result of the scenario's `createSession` call. -/
def demoCreate : Session × Store :=
  createSession Store.empty 100 "aaaaaa" "T0" "http://x" none

/-- Store holding the scenario session. -/
def demoSt1 : Store := demoCreate.2

/-- The scenario session id (`generateId 100 "aaaaaa"`). -/
def demoSid : String := demoCreate.1.id

/-- Result of the scenario's `addAnnotation` call. -/
def demoAdd : Option Annot × Store :=
  addAnnot demoSt1 demoSid
    { comment := "fix button", element := "<button>", elementPath := "/div/button" }
    101 "bbbbbb" "T1"

/-- Store holding the scenario session and its pending annotation. -/
def demoSt2 : Store := demoAdd.2

/-- The scenario annotation id (`generateId 101 "bbbbbb"`). -/
def demoAid : String := generateId 101 "bbbbbb"

/-- `demoSt2` after one thread message has been appended by a human. -/
def demoSt3 : Store :=
  (addThreadMessage demoSt2 demoAid .human "hello" 102 "cccccc" 5 "T2").2

/-- `demoSt2` after the annotation was resolved through
`updateAnnotationStatus`. -/
def demoResolvedSt : Store :=
  (updateAnnotationStatus demoSt2 demoAid .resolved none "T2" "T2R").2

/-- The scenario annotation as stored in `demoSt2`. -/
def demoAnnot : Annot :=
  { id := demoAid, sessionId := demoSid, comment := "fix button",
    element := "<button>", elementPath := "/div/button",
    status := .pending, createdAt := "T1" }

/-- The scenario annotation after `updateAnnotationStatus` resolved it
with the default actor. -/
def demoResolvedAnnot : Annot :=
  { demoAnnot with
      status := .resolved, updatedAt := some "T2",
      resolvedAt := some "T2R", resolvedBy := some Role.agent }

/-- The spec scenario's resolve step: the `agentation_resolve` tool called
on the stored annotation with summary `"done"`. -/
def demoResolveCall : ToolResult × Store :=
  callTool "agentation_resolve"
    ({ annotationId := some demoAid, summary := some "done" } : ToolArgs)
    demoSt2
    ({ t := 102, rand := "cccccc", ts := 7, now := "T3",
       nowU := "T2", nowR := "T2R" } : Ambient)

/-- `demoSt2` after a `PATCH /annotations/:id` request whose body rewrites
the annotation's `sessionId` to `"ghost"` — a session id that does not
exist.  The handler forwards the body unvalidated, so `Object.assign`
applies it. -/
def demoGhostSt : Store :=
  (updateAnnotationHandler demoSt2 demoAid
    ({ sessionId := some "ghost" } : AnnotPatch) "T4").2

/-- Referential soundness: every stored annotation's `sessionId` is a live
session key.  This holds in every state reachable through the store's own
interface (sessions are never deleted except by `clearAll`, which also
clears annotations). -/
def sessionsClosed (st : Store) : Prop :=
  ∀ a ∈ mapValues st.annotations, (mapGet st.sessions a.sessionId).isSome

/-! ## Lemmas about the map model -/

theorem mapGet_nil (k : String) : mapGet ([] : List (String × α)) k = none := rfl

theorem mapGet_cons (p : String × α) (m : List (String × α)) (k : String) :
    mapGet (p :: m) k = if p.1 == k then some p.2 else mapGet m k := by
  simp only [mapGet, List.find?_cons]
  rcases h : p.1 == k <;> simp [h]

theorem mapGet_mapReplace (m : List (String × α)) (k : String) (v : α)
    (id : String) :
    mapGet (mapReplace m k v) id =
      if id = k then (mapGet m k).map (fun _ => v) else mapGet m id := by
  induction m with
  | nil => simp [mapReplace, mapGet_nil]
  | cons p m ih =>
      by_cases hpk : p.1 = k <;> by_cases hik : id = k <;>
        by_cases hpi : p.1 = id <;>
          simp_all [mapReplace, mapGet_cons]

theorem mapGet_append_single (m : List (String × α)) (k : String) (v : α)
    (id : String) :
    mapGet (m ++ [(k, v)]) id =
      match mapGet m id with
      | some x => some x
      | none => if k = id then some v else none := by
  induction m with
  | nil => simp [mapGet_nil, mapGet_cons]
  | cons p m ih =>
      rcases h : p.1 == id <;>
        simp [mapGet_cons, h, ih]

theorem mapGet_mapSet (m : List (String × α)) (k : String) (v : α)
    (id : String) :
    mapGet (mapSet m k v) id = if id = k then some v else mapGet m id := by
  unfold mapSet
  rcases h : mapGet m k with _ | x
  · simp only [h, Option.isSome_none, Bool.false_eq_true, if_false]
    rw [mapGet_append_single]
    by_cases hik : id = k
    · subst hik
      simp [h]
    · have : k ≠ id := fun e => hik e.symm
      rcases h2 : mapGet m id <;> simp [h2, this, hik]
  · simp only [h, Option.isSome_some, if_true]
    rw [mapGet_mapReplace]
    by_cases hik : id = k <;> simp [hik, h]

theorem mapValues_append (m : List (String × α)) (k : String) (v : α) :
    mapValues (m ++ [(k, v)]) = mapValues m ++ [v] := by
  simp [mapValues]

theorem mem_mapValues_mapReplace (m : List (String × α)) (k : String) (v : α)
    (a : α) (h : a ∈ mapValues (mapReplace m k v)) :
    a = v ∨ a ∈ mapValues m := by
  simp only [mapValues, mapReplace, List.map_map, List.mem_map] at h
  obtain ⟨p, hp, hv⟩ := h
  by_cases hpk : p.1 == k
  · left
    simp [Function.comp, hpk] at hv
    exact hv.symm
  · right
    simp only [Bool.not_eq_true] at hpk
    simp [Function.comp, hpk] at hv
    exact hv ▸ List.mem_map_of_mem _ hp

theorem mapGet_mem_mapValues (m : List (String × α)) (k : String) (a : α)
    (h : mapGet m k = some a) : a ∈ mapValues m := by
  simp only [mapGet, Option.map_eq_some'] at h
  obtain ⟨p, hp, hv⟩ := h
  exact hv ▸ List.mem_map_of_mem _ (List.mem_of_find?_eq_some hp)

/-! ## Lemmas about single store operations -/

theorem getAnnot_addThreadMessage (st : Store) (id : String) (a : Annot)
    (role : Role) (content : String) (t : Nat) (rand : String) (ts : Nat)
    (now : String) (h : getAnnot st id = some a) :
    getAnnot (addThreadMessage st id role content t rand ts now).2 id =
      some { a with
        thread := some (a.thread.getD [] ++
          [{ id := generateId t rand, role := role, content := content,
             timestamp := ts }]),
        updatedAt := some now } := by
  have h' : mapGet st.annotations id = some a := h
  unfold getAnnot addThreadMessage
  rw [h']
  simp only []
  rw [mapGet_mapReplace]
  simp [h']

/-- `C4`: `getPendingAnnotations` is exactly the pending subset of the
session's stored annotations — for every store state, hence in particular
for every state reached by any interleaving of adds and updates. -/
theorem getPendingAnnotations_spec (st : Store) (sid : String) (a : Annot) :
    a ∈ getPendingAnnotations st sid ↔
      a ∈ mapValues st.annotations ∧ a.sessionId = sid ∧
        a.status = AnnotationStatus.pending := by
  simp [getPendingAnnotations, List.mem_filter, and_assoc]

/-- `C3`: adding an annotation to a nonexistent session returns the
not-found indicator (`undefined` / HTTP 404) and leaves the whole store
unchanged, both at the store function and through the HTTP handler. -/
theorem addAnnot_missing_session (st : Store) (sid : String) (data : AnnotData)
    (t : Nat) (rand now : String) (h : getSession st sid = none) :
    addAnnot st sid data t rand now = (none, st) ∧
    (data.comment ≠ "" → data.element ≠ "" → data.elementPath ≠ "" →
      addAnnotationHandler st sid data t rand now =
        (.notFound "Session not found", st)) := by
  have h' : mapGet st.sessions sid = none := h
  refine ⟨by unfold addAnnot; rw [h'], ?_⟩
  intro h1 h2 h3
  unfold addAnnotationHandler
  rw [if_neg (by simp [h1, h2, h3])]
  unfold addAnnot
  rw [h']

/-- Witness for `addAnnot_missing_session` on the empty store. -/
theorem addAnnot_missing_session_witness :
    addAnnot Store.empty "nope"
        { comment := "c", element := "e", elementPath := "p" } 0 "r" "T" =
      (none, Store.empty) ∧
    addAnnotationHandler Store.empty "nope"
        { comment := "c", element := "e", elementPath := "p" } 0 "r" "T" =
      (.notFound "Session not found", Store.empty) :=
  ⟨(addAnnot_missing_session Store.empty "nope"
      { comment := "c", element := "e", elementPath := "p" } 0 "r" "T" rfl).1,
   (addAnnot_missing_session Store.empty "nope"
      { comment := "c", element := "e", elementPath := "p" } 0 "r" "T" rfl).2
      (by decide) (by decide) (by decide)⟩

/-- `C1` counterexample: in the scenario store the annotation is
`pending` with no resolution stamps; one `updateAnnotation` call (the
`PATCH` store operation, with a payload its TypeScript signature allows)
moves `status` to `resolved` while leaving `resolvedAt` and `resolvedBy`
unset — so not every store operation that makes the status `resolved`
stamps them. -/
theorem updateAnnot_resolves_without_stamp :
    (getAnnot demoSt2 demoAid).map
        (fun a => (a.status, a.resolvedAt, a.resolvedBy)) =
      some (.pending, none, none) ∧
    ((updateAnnot demoSt2 demoAid
        ({ status := some .resolved } : AnnotPatch) "T2").1.map
        (fun a => (a.status, a.resolvedAt, a.resolvedBy))) =
      some (.resolved, none, none) := by
  decide

/-- `C1` (amended): an annotation's status is `pending` immediately after
`addAnnotation`; whenever `updateAnnotationStatus` sets it to `resolved`
or `dismissed`, that same call stamps `resolvedAt` and sets `resolvedBy`
(defaulting to `agent` when the argument is absent).  The partial-update
operation, however, can set a terminal status without stamping either
field. -/
theorem addAnnot_pending_and_terminal_stamps :
    (∀ (st : Store) (sid : String) (data : AnnotData) (t : Nat)
       (rand now : String) (a : Annot) (st1 : Store),
       addAnnot st sid data t rand now = (some a, st1) →
       a.status = AnnotationStatus.pending) ∧
    (∀ (st : Store) (id : String) (s : AnnotationStatus) (rb : Option Role)
       (nowU nowR : String) (a : Annot) (st1 : Store),
       updateAnnotationStatus st id s rb nowU nowR = (some a, st1) →
       s = AnnotationStatus.resolved ∨ s = AnnotationStatus.dismissed →
       a.status = s ∧ a.resolvedAt = some nowR ∧
         a.resolvedBy = some (rb.getD Role.agent)) := by
  constructor
  · intro st sid data t rand now a st1 h
    unfold addAnnot at h
    rcases hs : mapGet st.sessions sid with _ | s
    · rw [hs] at h
      exact absurd h (by simp)
    · rw [hs] at h
      simp only [Prod.mk.injEq, Option.some.injEq] at h
      rw [← h.1]
  · intro st id s rb nowU nowR a st1 h hterm
    unfold updateAnnotationStatus at h
    rcases ha : mapGet st.annotations id with _ | a0
    · rw [ha] at h
      exact absurd h (by simp)
    · rw [ha] at h
      simp only [if_pos hterm, Prod.mk.injEq, Option.some.injEq] at h
      rw [← h.1]
      rcases hterm with h1 | h1 <;> subst h1 <;> exact ⟨rfl, rfl, rfl⟩

/-- Witness for `addAnnot_pending_and_terminal_stamps` on the scenario
store: the added annotation is pending, and resolving it stamps both
fields with the agent default. -/
theorem addAnnot_pending_and_terminal_stamps_witness :
    demoAdd.1 = some demoAnnot ∧
    demoAnnot.status = AnnotationStatus.pending ∧
    demoResolvedAnnot.status = AnnotationStatus.resolved ∧
    demoResolvedAnnot.resolvedAt = some "T2R" := by
  refine ⟨by decide, ?_, ?_, ?_⟩
  · exact addAnnot_pending_and_terminal_stamps.1 demoSt1 demoSid
      { comment := "fix button", element := "<button>",
        elementPath := "/div/button" } 101 "bbbbbb" "T1" demoAnnot demoSt2
      (by decide)
  · exact (addAnnot_pending_and_terminal_stamps.2 demoSt2 demoAid .resolved
      none "T2" "T2R" demoResolvedAnnot demoResolvedSt
      (by decide) (Or.inl rfl)).1
  · exact (addAnnot_pending_and_terminal_stamps.2 demoSt2 demoAid .resolved
      none "T2" "T2R" demoResolvedAnnot demoResolvedSt
      (by decide) (Or.inl rfl)).2.1

/-- A run of `addThreadMessage` calls appends exactly the constructed
messages, in call order, after whatever thread the annotation already
had. -/
theorem appendCalls_thread (id : String) (cs : List MsgCall) :
    ∀ (st : Store) (a : Annot), getAnnot st id = some a →
      (getAnnot (appendCalls st id cs) id).map (fun x => x.thread.getD []) =
        some (a.thread.getD [] ++ cs.map msgOf) := by
  induction cs with
  | nil =>
      intro st a h
      simp [appendCalls, h]
  | cons c cs ih =>
      intro st a h
      have h1 := getAnnot_addThreadMessage st id a c.role c.content c.t c.rand
        c.ts c.now h
      have h2 := ih _ _ h1
      simp only [appendCalls, List.foldl_cons] at h2 ⊢
      rw [h2]
      simp [msgOf]

/-- Every store call that is not a thread-replacing one (a partial update
carrying a `thread` key, or an add whose generated id collides) leaves an
annotation's existing thread entries in place, at most appending. -/
theorem step_thread_extends (st : Store) (op : Op) (id : String) (a a' : Annot)
    (ha : getAnnot st id = some a)
    (ha' : getAnnot (step st op) id = some a')
    (hrt : ¬ Op.replacesThread op id) :
    ∃ tail, a'.thread.getD [] = a.thread.getD [] ++ tail := by
  have hmem : mapGet st.annotations id = some a := ha
  cases op with
  | opCreateSession t rand now url projectId =>
      have e : getAnnot (step st (Op.opCreateSession t rand now url projectId)) id
          = mapGet st.annotations id := rfl
      rw [e, hmem, Option.some.injEq] at ha'
      exact ⟨[], by rw [← ha']; simp⟩
  | opUpdateSessionStatus sid status now =>
      rcases hs : mapGet st.sessions sid with _ | s <;>
        (simp only [step, updateSessionStatus, hs, getAnnot] at ha'
         rw [hmem, Option.some.injEq] at ha'
         exact ⟨[], by rw [← ha']; simp⟩)
  | opAddAnnot sid data t rand now =>
      have hneq : generateId t rand ≠ id := hrt
      rcases hs : mapGet st.sessions sid with _ | s
      · simp only [step, addAnnot, hs, getAnnot] at ha'
        rw [hmem, Option.some.injEq] at ha'
        exact ⟨[], by rw [← ha']; simp⟩
      · simp only [step, addAnnot, hs, getAnnot] at ha'
        rw [mapGet_mapSet, if_neg (fun e => hneq e.symm), hmem,
          Option.some.injEq] at ha'
        exact ⟨[], by rw [← ha']; simp⟩
  | opUpdateStatus aid status rb nowU nowR =>
      rcases ha0 : mapGet st.annotations aid with _ | a0
      · simp only [step, updateAnnotationStatus, ha0, getAnnot] at ha'
        rw [hmem, Option.some.injEq] at ha'
        exact ⟨[], by rw [← ha']; simp⟩
      · simp only [step, updateAnnotationStatus, ha0, getAnnot] at ha'
        rw [mapGet_mapReplace] at ha'
        by_cases hid : id = aid
        · subst hid
          rw [ha0] at hmem
          obtain rfl : a0 = a := Option.some.inj hmem
          rw [ha0] at ha'
          simp only [eq_self_iff_true, if_true, Option.map_some',
            Option.some.injEq] at ha'
          refine ⟨[], ?_⟩
          rw [← ha']
          split <;> simp
        · rw [if_neg hid, hmem, Option.some.injEq] at ha'
          exact ⟨[], by rw [← ha']; simp⟩
  | opPatch aid patch now =>
      rcases ha0 : mapGet st.annotations aid with _ | a0
      · simp only [step, updateAnnot, ha0, getAnnot] at ha'
        rw [hmem, Option.some.injEq] at ha'
        exact ⟨[], by rw [← ha']; simp⟩
      · simp only [step, updateAnnot, ha0, getAnnot] at ha'
        rw [mapGet_mapReplace] at ha'
        by_cases hid : id = aid
        · subst hid
          have hth : patch.thread = none := by
            by_contra hth
            exact hrt ⟨rfl, hth⟩
          rw [ha0] at hmem
          obtain rfl : a0 = a := Option.some.inj hmem
          rw [ha0] at ha'
          simp only [eq_self_iff_true, if_true, Option.map_some',
            Option.some.injEq] at ha'
          refine ⟨[], ?_⟩
          rw [← ha']
          simp [applyPatch, orKeep, hth]
        · rw [if_neg hid, hmem, Option.some.injEq] at ha'
          exact ⟨[], by rw [← ha']; simp⟩
  | opAddThreadMessage aid role content t rand ts now =>
      rcases ha0 : mapGet st.annotations aid with _ | a0
      · simp only [step, addThreadMessage, ha0, getAnnot] at ha'
        rw [hmem, Option.some.injEq] at ha'
        exact ⟨[], by rw [← ha']; simp⟩
      · simp only [step, addThreadMessage, ha0, getAnnot] at ha'
        rw [mapGet_mapReplace] at ha'
        by_cases hid : id = aid
        · subst hid
          rw [ha0] at hmem
          obtain rfl : a0 = a := Option.some.inj hmem
          rw [ha0] at ha'
          simp only [eq_self_iff_true, if_true, Option.map_some',
            Option.some.injEq] at ha'
          exact ⟨[{ id := generateId t rand, role := role, content := content,
                    timestamp := ts }], by rw [← ha']; simp⟩
        · rw [if_neg hid, hmem, Option.some.injEq] at ha'
          exact ⟨[], by rw [← ha']; simp⟩
  | opClearAll =>
      exact absurd ha' (by simp [step, clearAll, getAnnot, mapGet_nil])

/-- `C2` counterexample: the scenario annotation has one thread message
(`"hello"`); a single `updateAnnotation` call whose payload carries a
`thread` key (allowed by the function's TypeScript signature, and
reachable through `PATCH /annotations/:id`) replaces the thread with the
empty list, removing the existing entry. -/
theorem updateAnnot_replaces_thread :
    ((getAnnot demoSt3 demoAid).map
        (fun a => (a.thread.getD []).map (fun m => m.content))) =
      some ["hello"] ∧
    (((updateAnnot demoSt3 demoAid ({ thread := some [] } : AnnotPatch)
        "T3").1.map
        (fun a => (a.thread.getD []).map (fun m => m.content)))) =
      some [] := by
  decide

/-- `C2` (amended): appending `N` thread messages to an annotation whose
thread is empty yields exactly the `N` constructed messages in call order
(hence length `N`), and no store operation removes or reorders existing
thread entries — except a partial update whose payload carries a `thread`
key (which replaces the thread wholesale) or an add whose generated id
collides with the annotation's key (which overwrites the map entry). -/
theorem thread_append_only :
    (∀ (id : String) (cs : List MsgCall) (st : Store) (a : Annot),
       getAnnot st id = some a → a.thread = none →
       (getAnnot (appendCalls st id cs) id).map (fun x => x.thread.getD []) =
         some (cs.map msgOf)) ∧
    (∀ (st : Store) (op : Op) (id : String) (a a' : Annot),
       getAnnot st id = some a → getAnnot (step st op) id = some a' →
       ¬ Op.replacesThread op id →
       ∃ tail, a'.thread.getD [] = a.thread.getD [] ++ tail) := by
  constructor
  · intro id cs st a h hnone
    have h1 := appendCalls_thread id cs st a h
    rw [hnone] at h1
    simpa using h1
  · exact fun st op id a a' => step_thread_extends st op id a a'

/-- Witness for `thread_append_only`: two appends to the scenario
annotation produce its two messages in order, and acknowledging the
annotation leaves its (empty) thread a prefix of itself. -/
theorem thread_append_only_witness :
    ((getAnnot (appendCalls demoSt2 demoAid
        [⟨Role.human, "m1", 7, "dddddd", 9, "T7"⟩,
         ⟨Role.agent, "m2", 8, "eeeeee", 10, "T8"⟩]) demoAid).map
      (fun x => x.thread.getD []) =
      some (List.map msgOf
        [⟨Role.human, "m1", 7, "dddddd", 9, "T7"⟩,
         ⟨Role.agent, "m2", 8, "eeeeee", 10, "T8"⟩])) ∧
    (∃ tail,
      ({ demoAnnot with
           status := AnnotationStatus.acknowledged,
           updatedAt := some "T5" } : Annot).thread.getD [] =
        demoAnnot.thread.getD [] ++ tail) := by
  constructor
  · exact thread_append_only.1 demoAid
      [⟨Role.human, "m1", 7, "dddddd", 9, "T7"⟩,
       ⟨Role.agent, "m2", 8, "eeeeee", 10, "T8"⟩]
      demoSt2 demoAnnot (by decide) (by decide)
  · exact thread_append_only.2 demoSt2
      (Op.opUpdateStatus demoAid .acknowledged none "T5" "T5R") demoAid
      demoAnnot
      ({ demoAnnot with
           status := AnnotationStatus.acknowledged,
           updatedAt := some "T5" })
      (by decide) (by decide) (by simp [Op.replacesThread])

/-- `C5`: the spec scenario.  The session is created for `http://x`; the
`fix button` annotation is added to it and is `pending`; calling the
resolve tool with summary `"done"` returns a success payload and leaves
the annotation `resolved` with `resolvedBy` `agent` and a thread holding
exactly one agent message `"Resolved: done"`. -/
theorem resolve_scenario :
    demoCreate.1.url = "http://x" ∧
    demoCreate.1.status = SessionStatus.active ∧
    (demoAdd.1.map (fun a => (a.comment, a.element, a.elementPath, a.status))) =
      some ("fix button", "<button>", "/div/button", .pending) ∧
    demoResolveCall.1 = success (.resolvedOk demoAid (some "done")) ∧
    ((getAnnot demoResolveCall.2 demoAid).map
        (fun a => (a.status, a.resolvedBy,
          (a.thread.getD []).map (fun m => (m.role, m.content))))) =
      some (.resolved, some Role.agent, [(Role.agent, "Resolved: done")]) := by
  decide

/-- `C10`: on an existing annotation, `updateAnnotationStatus` with a
non-terminal status (`pending` or `acknowledged`) succeeds and yields the
stored record with only `status` and `updatedAt` overwritten — in
particular any previously stamped `resolvedAt`/`resolvedBy` values are
kept as they were. -/
theorem updateStatus_nonterminal_keeps_stamps (st : Store) (id : String)
    (a : Annot) (s : AnnotationStatus) (rb : Option Role) (nowU nowR : String)
    (h : getAnnot st id = some a)
    (hs : s = AnnotationStatus.pending ∨ s = AnnotationStatus.acknowledged) :
    updateAnnotationStatus st id s rb nowU nowR =
      (some { a with status := s, updatedAt := some nowU },
       { st with annotations := (mapReplace st.annotations id
           { a with status := s, updatedAt := some nowU }) }) := by
  have h' : mapGet st.annotations id = some a := h
  have hcond : ¬(s = AnnotationStatus.resolved ∨ s = AnnotationStatus.dismissed) := by
    rcases hs with h1 | h1 <;> subst h1 <;> simp
  simp [updateAnnotationStatus, h', hcond]

/-- Witness for `updateStatus_nonterminal_keeps_stamps`: moving the
resolved scenario annotation back to `pending` keeps its
`resolvedAt`/`resolvedBy` stamps. -/
theorem updateStatus_nonterminal_keeps_stamps_witness :
    updateAnnotationStatus demoResolvedSt demoAid .pending none "T6" "T6R" =
      (some { demoResolvedAnnot with status := .pending, updatedAt := some "T6" },
       { demoResolvedSt with annotations := (mapReplace
           demoResolvedSt.annotations demoAid
           { demoResolvedAnnot with status := .pending, updatedAt := some "T6" }) }) ∧
    ({ demoResolvedAnnot with status := .pending, updatedAt := some "T6" } :
        Annot).resolvedAt = some "T2R" ∧
    ({ demoResolvedAnnot with status := .pending, updatedAt := some "T6" } :
        Annot).resolvedBy = some Role.agent :=
  ⟨updateStatus_nonterminal_keeps_stamps demoResolvedSt demoAid
      demoResolvedAnnot .pending none "T6" "T6R" (by decide) (Or.inl rfl),
   by decide, by decide⟩

/-- `C8`: the scenario annotation starts with its generated `id`, its
session's `sessionId` and `createdAt` `"T1"`; one `PATCH` request whose
body carries those three keys overwrites all of them, because
`Object.assign` copies every present key even though the store function's
TypeScript signature omits `id`/`sessionId`/`createdAt`.  This
demonstrates the runtime contradicting the declared immutability. -/
theorem patch_overwrites_immutable_fields :
    ((getAnnot demoSt2 demoAid).map
        (fun a => (a.id, a.sessionId, a.createdAt))) =
      some (demoAid, demoSid, "T1") ∧
    (match (updateAnnotationHandler demoSt2 demoAid
        ({ id := some "evil", sessionId := some "other",
           createdAt := some "1999" } : AnnotPatch) "T9").1 with
     | PatchOutcome.ok a => some (a.id, a.sessionId, a.createdAt)
     | PatchOutcome.notFound _ => none) = some ("evil", "other", "1999") := by
  decide

/-- Digits produced by `toString(36)` are never the dash separator. -/
theorem base36Char_ne_dash (d : Nat) (hd : d < 36) : base36Char d ≠ '-' := by
  interval_cases d <;> decide

theorem natToBase36Go_dashFree :
    ∀ (fuel n : Nat) (acc : List Char), (∀ c ∈ acc, c ≠ '-') →
      ∀ c ∈ natToBase36Go fuel n acc, c ≠ '-' := by
  intro fuel
  induction fuel with
  | zero => exact fun n acc hacc c hc => hacc c hc
  | succ fuel ih =>
      intro n acc hacc c hc
      simp only [natToBase36Go] at hc
      by_cases hn : n = 0
      · rw [if_pos hn] at hc
        exact hacc c hc
      · rw [if_neg hn] at hc
        refine ih _ _ ?_ c hc
        intro x hx
        rcases List.mem_cons.mp hx with h | h
        · subst h
          exact base36Char_ne_dash _ (Nat.mod_lt _ (by decide))
        · exact hacc x h

theorem natToBase36_dashFree (n : Nat) : dashFree (natToBase36 n) := by
  unfold natToBase36 dashFree
  by_cases hn : n = 0
  · rw [if_pos hn]
    decide
  · rw [if_neg hn]
    exact fun c hc => natToBase36Go_dashFree n n [] (by simp) c hc

/-- Splitting a character list at a dash is unique when both prefixes are
dash-free. -/
theorem append_dash_inj :
    ∀ (a1 a2 b1 b2 : List Char), (∀ c ∈ a1, c ≠ '-') → (∀ c ∈ a2, c ≠ '-') →
      a1 ++ '-' :: b1 = a2 ++ '-' :: b2 → a1 = a2 ∧ b1 = b2 := by
  intro a1
  induction a1 with
  | nil =>
      intro a2 b1 b2 _h1 h2 heq
      cases a2 with
      | nil =>
          simp only [List.nil_append, List.cons.injEq] at heq
          exact ⟨rfl, heq.2⟩
      | cons c a2' =>
          exfalso
          simp only [List.nil_append, List.cons_append, List.cons.injEq] at heq
          exact h2 c (List.mem_cons_self _ _) heq.1.symm
  | cons c a1' ih =>
      intro a2 b1 b2 h1 h2 heq
      cases a2 with
      | nil =>
          exfalso
          simp only [List.cons_append, List.nil_append, List.cons.injEq] at heq
          exact h1 c (List.mem_cons_self _ _) heq.1
      | cons d a2' =>
          simp only [List.cons_append, List.cons.injEq] at heq
          obtain ⟨hcd, htail⟩ := heq
          obtain ⟨he, hb⟩ := ih a2' b1 b2
            (fun x hx => h1 x (List.mem_cons_of_mem _ hx))
            (fun x hx => h2 x (List.mem_cons_of_mem _ hx)) htail
          exact ⟨by rw [hcd, he], hb⟩

/-- Two generated ids with distinct random suffixes are distinct,
whatever the two timestamps were: the time prefix is dash-free, so the
first dash separates it unambiguously from the suffix. -/
theorem generateId_rand_inj (t1 t2 : Nat) (r1 r2 : String)
    (heq : generateId t1 r1 = generateId t2 r2) : r1 = r2 := by
  unfold generateId at heq
  have hdata := congrArg String.data heq
  simp only [String.data_append] at hdata
  have hlist : (natToBase36 t1).data ++ '-' :: r1.data =
      (natToBase36 t2).data ++ '-' :: r2.data := by
    simpa [List.append_assoc] using hdata
  have hsplit := append_dash_inj _ _ _ _
    (natToBase36_dashFree t1) (natToBase36_dashFree t2) hlist
  exact String.ext hsplit.2

/-- `C6` counterexample: two `createSession` calls that read the same
`Date.now()` millisecond and draw the same random suffix return sessions
with the same id — the scheme does not guarantee uniqueness
unconditionally. -/
theorem createSession_id_collision :
    (createSession (createSession Store.empty 100 "aaaaaa" "T0" "http://x" none).2
        100 "aaaaaa" "T1" "http://y" none).1.id =
      (createSession Store.empty 100 "aaaaaa" "T0" "http://x" none).1.id := by
  decide

/-- `C6` (amended): every created session has status `active` and id
`generateId t rand`; such an id differs from any other generated id (in
particular from every previously created session's or annotation's id)
whenever the two random suffixes differ.  When timestamp and suffix both
repeat, the ids collide. -/
theorem createSession_active_and_distinct (st : Store) (t : Nat)
    (rand now url : String) (projectId : Option String) :
    (createSession st t rand now url projectId).1.status =
      SessionStatus.active ∧
    (createSession st t rand now url projectId).1.id = generateId t rand ∧
    (∀ (t2 : Nat) (rand2 : String), rand ≠ rand2 →
      generateId t2 rand2 ≠ (createSession st t rand now url projectId).1.id) := by
  refine ⟨rfl, rfl, ?_⟩
  intro t2 rand2 hne heq
  exact hne (generateId_rand_inj t2 t rand2 rand heq).symm

/-- Witness for `createSession_active_and_distinct` at concrete inputs. -/
theorem createSession_active_and_distinct_witness :
    (createSession Store.empty 100 "aaaaaa" "T0" "http://x" none).1.status =
      SessionStatus.active ∧
    generateId 200 "cccccc" ≠
      (createSession Store.empty 100 "aaaaaa" "T0" "http://x" none).1.id :=
  ⟨(createSession_active_and_distinct Store.empty 100 "aaaaaa" "T0" "http://x"
      none).1,
   (createSession_active_and_distinct Store.empty 100 "aaaaaa" "T0" "http://x"
      none).2.2 200 "cccccc" (by decide)⟩

/-- `C7`: the registered dispatch handler always returns a result
payload.  A thrown validation error (the `Except.error` branch of
`handleTool`, i.e. a zod `parse` failure) is caught and returned as an
`isError` payload with the store untouched; an unknown tool name and every
store not-found outcome are likewise returned as structured `isError`
results, never exceptions (`callTool` is a total function into
`ToolResult × Store`). -/
theorem callTool_structured_errors (name : String) (args : ToolArgs)
    (st : Store) (amb : Ambient) :
    (∀ msg, handleTool name args st amb = .error msg →
      callTool name args st amb = (errorResult msg, st)) ∧
    (name ∉ knownTools →
      callTool name args st amb =
        (errorResult ("Unknown tool: " ++ name), st)) ∧
    (∀ sid, name = "agentation_get_session" → args.sessionId = some sid →
      getSession st sid = none →
      callTool name args st amb =
        (errorResult ("Session not found: " ++ sid), st)) ∧
    (∀ aid, name = "agentation_acknowledge" → args.annotationId = some aid →
      getAnnot st aid = none →
      callTool name args st amb =
        (errorResult ("Annotation not found: " ++ aid), st)) ∧
    (∀ aid, name = "agentation_resolve" → args.annotationId = some aid →
      getAnnot st aid = none →
      callTool name args st amb =
        (errorResult ("Annotation not found: " ++ aid), st)) ∧
    (∀ aid r, name = "agentation_dismiss" → args.annotationId = some aid →
      args.reason = some r → getAnnot st aid = none →
      callTool name args st amb =
        (errorResult ("Annotation not found: " ++ aid), st)) ∧
    (∀ aid m, name = "agentation_reply" → args.annotationId = some aid →
      args.message = some m → getAnnot st aid = none →
      callTool name args st amb =
        (errorResult ("Annotation not found: " ++ aid), st)) := by
  refine ⟨?_, ?_, ?_, ?_, ?_, ?_, ?_⟩
  · intro msg h
    simp [callTool, h]
  · intro hname
    have h1 : name ≠ "agentation_list_sessions" := fun e => hname (by
      rw [e]; simp [knownTools])
    have h2 : name ≠ "agentation_get_session" := fun e => hname (by
      rw [e]; simp [knownTools])
    have h3 : name ≠ "agentation_get_pending" := fun e => hname (by
      rw [e]; simp [knownTools])
    have h4 : name ≠ "agentation_acknowledge" := fun e => hname (by
      rw [e]; simp [knownTools])
    have h5 : name ≠ "agentation_resolve" := fun e => hname (by
      rw [e]; simp [knownTools])
    have h6 : name ≠ "agentation_dismiss" := fun e => hname (by
      rw [e]; simp [knownTools])
    have h7 : name ≠ "agentation_reply" := fun e => hname (by
      rw [e]; simp [knownTools])
    simp [callTool, handleTool, h1, h2, h3, h4, h5, h6, h7]
  · intro sid hname hsid hns
    subst hname
    have hns' : mapGet st.sessions sid = none := hns
    simp [callTool, handleTool, hsid, getSessionWithAnnotations, hns']
  · intro aid hname haid hna
    subst hname
    have hna' : mapGet st.annotations aid = none := hna
    simp [callTool, handleTool, haid, updateAnnotationStatus, hna']
  · intro aid hname haid hna
    subst hname
    have hna' : mapGet st.annotations aid = none := hna
    simp [callTool, handleTool, haid, updateAnnotationStatus, hna']
  · intro aid r hname haid hr hna
    subst hname
    have hna' : mapGet st.annotations aid = none := hna
    simp [callTool, handleTool, haid, hr, updateAnnotationStatus, hna']
  · intro aid m hname haid hm hna
    subst hname
    have hna' : mapGet st.annotations aid = none := hna
    simp [callTool, handleTool, haid, hm, getAnnot, hna']

/-- Witness for `callTool_structured_errors`: on the empty store, a
validation failure, an unknown tool and a not-found lookup each come back
as structured error payloads. -/
theorem callTool_structured_errors_witness :
    callTool "agentation_get_pending" ({} : ToolArgs) Store.empty {} =
      (errorResult "sessionId is required", Store.empty) ∧
    callTool "bogus_tool" ({} : ToolArgs) Store.empty {} =
      (errorResult ("Unknown tool: " ++ "bogus_tool"), Store.empty) ∧
    callTool "agentation_reply"
        ({ annotationId := some "zzz", message := some "hi" } : ToolArgs)
        Store.empty {} =
      (errorResult ("Annotation not found: " ++ "zzz"), Store.empty) := by
  refine ⟨?_, ?_, ?_⟩
  · exact (callTool_structured_errors "agentation_get_pending" {} Store.empty
      {}).1 "sessionId is required" rfl
  · exact (callTool_structured_errors "bogus_tool" {} Store.empty {}).2.1
      (by decide)
  · exact (callTool_structured_errors "agentation_reply"
      { annotationId := some "zzz", message := some "hi" } Store.empty
      {}).2.2.2.2.2.2 "zzz" "hi" rfl rfl rfl rfl

theorem mem_mapValues_mapSet (m : List (String × α)) (k : String) (v : α)
    (a : α) (h : a ∈ mapValues (mapSet m k v)) : a = v ∨ a ∈ mapValues m := by
  unfold mapSet at h
  split at h
  · exact mem_mapValues_mapReplace m k v a h
  · rw [mapValues_append] at h
    rcases List.mem_append.mp h with h | h
    · exact Or.inr h
    · exact Or.inl (by simpa using h)

/-- Every well-typed store call preserves referential soundness of
annotations to sessions. -/
theorem sessionsClosed_step (st : Store) (op : Op) (hw : op.wellTyped)
    (h : sessionsClosed st) : sessionsClosed (step st op) := by
  cases op with
  | opCreateSession t rand now url projectId =>
      intro a ha
      have hmem : a ∈ mapValues st.annotations := ha
      have hs := h a hmem
      simp only [step, createSession]
      rw [mapGet_mapSet]
      split
      · simp
      · exact hs
  | opUpdateSessionStatus sid status now =>
      intro a ha
      rcases hs : mapGet st.sessions sid with _ | s
      · simp only [step, updateSessionStatus, hs] at ha ⊢
        exact h a ha
      · simp only [step, updateSessionStatus, hs] at ha ⊢
        rw [mapGet_mapReplace]
        split
        · simp [hs]
        · exact h a ha
  | opAddAnnot sid data t rand now =>
      intro a ha
      rcases hs : mapGet st.sessions sid with _ | s
      · simp only [step, addAnnot, hs] at ha ⊢
        exact h a ha
      · simp only [step, addAnnot, hs] at ha ⊢
        rcases mem_mapValues_mapSet _ _ _ _ ha with rfl | hmem
        · simp [hs]
        · exact h a hmem
  | opUpdateStatus aid status rb nowU nowR =>
      intro a ha
      rcases ha0 : mapGet st.annotations aid with _ | a0
      · simp only [step, updateAnnotationStatus, ha0] at ha ⊢
        exact h a ha
      · simp only [step, updateAnnotationStatus, ha0] at ha ⊢
        rcases mem_mapValues_mapReplace _ _ _ _ ha with rfl | hmem
        · have h0 := h a0 (mapGet_mem_mapValues _ _ _ ha0)
          split <;> exact h0
        · exact h a hmem
  | opPatch aid patch now =>
      intro a ha
      rcases ha0 : mapGet st.annotations aid with _ | a0
      · simp only [step, updateAnnot, ha0] at ha ⊢
        exact h a ha
      · simp only [step, updateAnnot, ha0] at ha ⊢
        rcases mem_mapValues_mapReplace _ _ _ _ ha with rfl | hmem
        · have h0 := h a0 (mapGet_mem_mapValues _ _ _ ha0)
          simpa [applyPatch, hw.2.1] using h0
        · exact h a hmem
  | opAddThreadMessage aid role content t rand ts now =>
      intro a ha
      rcases ha0 : mapGet st.annotations aid with _ | a0
      · simp only [step, addThreadMessage, ha0] at ha ⊢
        exact h a ha
      · simp only [step, addThreadMessage, ha0] at ha ⊢
        rcases mem_mapValues_mapReplace _ _ _ _ ha with rfl | hmem
        · exact h a0 (mapGet_mem_mapValues _ _ _ ha0)
        · exact h a hmem
  | opClearAll =>
      intro a ha
      simp [step, clearAll, mapValues] at ha

/-- Referential soundness holds after replaying any well-typed call
sequence from a sound state. -/
theorem sessionsClosed_run (ops : List Op) :
    ∀ st, (∀ op ∈ ops, op.wellTyped) → sessionsClosed st →
      sessionsClosed (run st ops) := by
  induction ops with
  | nil => exact fun st _ h => h
  | cons op ops ih =>
      intro st hw h
      simp only [run, List.foldl_cons]
      exact ih (step st op) (fun o ho => hw o (List.mem_cons_of_mem _ ho))
        (sessionsClosed_step st op (hw op (List.mem_cons_self _ _)) h)

/-- `C9` counterexample: after a runtime-reachable
`PATCH /annotations/:id` body `\x7b"sessionId":"ghost"\x7d` on the
scenario's pending annotation, session `"ghost"` does not exist, yet
`getPendingAnnotations "ghost"` returns that annotation and the
`agentation_get_pending` tool returns a success payload with count `1` —
not the empty sequence / count `0` the claim states (it is still a
success payload, not an error). -/
theorem patched_sessionId_ghost_pending :
    getSession demoGhostSt "ghost" = none ∧
    (getPendingAnnotations demoGhostSt "ghost").map (fun a => a.id) =
      [demoAid] ∧
    (callTool "agentation_get_pending"
        ({ sessionId := some "ghost" } : ToolArgs) demoGhostSt
        ({} : Ambient)).1 =
      success (.pendingList 1
        [{ id := demoAid, comment := "fix button", element := "<button>",
           elementPath := "/div/button", url := none, intent := none,
           severity := none, timestamp := none, nearbyText := none,
           reactComponents := none }]) := by
  decide

/-- `C9` (amended): in any state reached by a call sequence whose partial
updates respect `updateAnnotation`'s declared TypeScript type (no
`id`/`sessionId`/`createdAt` keys), querying the pending annotations of a
session id that does not exist yields the empty list — a success value,
since `getPendingAnnotations` has no not-found outcome — and the
`agentation_get_pending` tool returns a success payload with count `0`,
not an error payload.  A runtime `PATCH` body carrying a `sessionId` key
can break this: it reparents an annotation onto a nonexistent session id,
after which `get_pending` returns it (still as a success payload). -/
theorem getPending_missing_session (ops : List Op) (sid : String)
    (hw : ∀ op ∈ ops, op.wellTyped)
    (hmiss : getSession (run Store.empty ops) sid = none) :
    getPendingAnnotations (run Store.empty ops) sid = [] ∧
    (∀ (args : ToolArgs) (amb : Ambient), args.sessionId = some sid →
      callTool "agentation_get_pending" args (run Store.empty ops) amb =
        (success (.pendingList 0 []), run Store.empty ops)) := by
  have hclosed : sessionsClosed (run Store.empty ops) :=
    sessionsClosed_run ops Store.empty hw
      (fun a ha => absurd ha (by simp [Store.empty, mapValues]))
  have hmiss' : mapGet (run Store.empty ops).sessions sid = none := hmiss
  have hempty : getPendingAnnotations (run Store.empty ops) sid = [] := by
    unfold getPendingAnnotations
    rw [List.filter_eq_nil_iff]
    intro a ha hpred
    have hsome := hclosed a ha
    simp only [Bool.and_eq_true, beq_iff_eq] at hpred
    rw [hpred.1, hmiss'] at hsome
    simp at hsome
  refine ⟨hempty, ?_⟩
  intro args amb hsid
  simp [callTool, handleTool, hsid, hempty]

/-- Witness for `getPending_missing_session`: one session is created, then
an unknown session id is queried — empty list, success payload with count
zero. -/
theorem getPending_missing_session_witness :
    getPendingAnnotations
        (run Store.empty [Op.opCreateSession 100 "aaaaaa" "T0" "http://x" none])
        "ghost" = [] ∧
    callTool "agentation_get_pending" ({ sessionId := some "ghost" } : ToolArgs)
        (run Store.empty [Op.opCreateSession 100 "aaaaaa" "T0" "http://x" none])
        {} =
      (success (.pendingList 0 []),
       run Store.empty [Op.opCreateSession 100 "aaaaaa" "T0" "http://x" none]) :=
  ⟨(getPending_missing_session
      [Op.opCreateSession 100 "aaaaaa" "T0" "http://x" none] "ghost"
      (fun op ho => by rcases List.mem_singleton.mp ho with rfl; trivial)
      (by decide)).1,
   (getPending_missing_session
      [Op.opCreateSession 100 "aaaaaa" "T0" "http://x" none] "ghost"
      (fun op ho => by rcases List.mem_singleton.mp ho with rfl; trivial)
      (by decide)).2 { sessionId := some "ghost" } {} rfl⟩

end Agentation
